import Mathlib

/-!
Verification of the orchestration core of the `code-agent` repository.

The definitions below are a shallow embedding of the Python sources:
  * `code_agent/agent/state.py`   — `Task`, `Plan`, `AgentState`
  * `code_agent/agent/graph.py`   — `supervisor_node` and the worker
    post-processing in `worker_node` (planner plan-submission handling,
    reviewer verification-tool gate and verdict parsing)
  * `code_agent/agent/human_in_the_loop.py` — `PatternManager` and
    `wrap_tool_with_confirmation` (the permission gate)
  * `src/tools/planning.py`       — `SubmitPlanTool` / `PlanSubmittedException`
  * `src/utils/path.py`           — `resolve_workspace_path`

Python dict "state patches" are embedded as a structure of `Option` fields
(`none` = key absent from the returned patch); Python exceptions are embedded
as an `Except`-style sum; Python strings stay `String`.
-/

namespace CodeAgent

/-- Kind of a LangChain message (`HumanMessage`, `AIMessage`, `SystemMessage`,
`ToolMessage`).  The supervisor only inspects whether a message is human. -/
inductive MsgKind where
  | human
  | ai
  | system
  | tool
deriving DecidableEq, Repr

/-- A conversation message: its kind, its textual content and the names of the
tool calls attached to it (`msg.tool_calls`, names only — the worker
post-processing in `graph.py` only reads `tc["name"]`). -/
structure Message where
  kind : MsgKind
  content : String
  tool_calls : List String := []
deriving DecidableEq, Repr

/-- One task of a plan (`state.py`, class `Task`).  Only the fields the
orchestration core reads are kept; `status`, `depends_on`, `priority`,
`acceptance_criteria` and `taskPhase` are carried along unchanged. -/
structure Task where
  id : Int
  description : String
  status : String := "pending"
  depends_on : List Int := []
  priority : Int := 0
  acceptance_criteria : String := ""
  taskPhase : String := "core"
deriving DecidableEq, Repr

/-- A project plan (`state.py`, class `Plan`). -/
structure Plan where
  tasks : List Task
  summary : String
deriving DecidableEq, Repr

/-- The orchestration state threaded through every turn (`state.py`,
`AgentState`).  `phase` and `review_status` are kept as raw strings because
`supervisor_node` compares them as strings and has an unknown-phase fallback. -/
structure AgentState where
  messages : List Message
  phase : String := "planning"
  plan : Option Plan := none
  iteration_count : Nat := 0
  max_iterations : Nat := 15
  review_status : String := "pending"
  issues_found : List String := []
deriving DecidableEq, Repr

/-- A state patch returned by `supervisor_node`: a Python dict with a subset of
the state keys.  `none` models an absent key; `plan := some none` models the
explicit `"plan": None` entry of the first-user-message reset. -/
structure Patch where
  next : String
  phase : Option String := none
  plan : Option (Option Plan) := none
  iteration_count : Option Nat := none
  review_status : Option String := none
  issues_found : Option (List String) := none
deriving DecidableEq, Repr

/-- Helper `is_last_message_from_user` inside `supervisor_node`: the last
message exists and is a `HumanMessage`. -/
def isLastMessageFromUser (messages : List Message) : Bool :=
  match messages.getLast? with
  | none => false
  | some m => m.kind = MsgKind.human

/-- Helper `count_user_messages` inside `supervisor_node`. -/
def countUserMessages (messages : List Message) : Nat :=
  (messages.filter (fun m => m.kind = MsgKind.human)).length

/-- The supervisor decision function (`graph.py`, `supervisor_node`), a pure
function from the orchestration state to a routing patch.  The branches are
translated in source order: hard iteration-cap stop, new-user-message reset
(full reset on the very first user message, plan-preserving reset on
follow-ups), then phase-based routing with the review feedback loop, the
single parse-failure retry (guarded by `iteration_count > 0`), and the
unknown-phase fallback to planning. -/
def supervisor_node (state : AgentState) : Patch :=
  if state.iteration_count ≥ state.max_iterations then
    { next := "FINISH", phase := some "done" }
  else if isLastMessageFromUser state.messages then
    if countUserMessages state.messages = 1 then
      { next := "Planner", phase := some "planning", plan := some none,
        iteration_count := some 0, review_status := some "pending",
        issues_found := some [] }
    else
      { next := "Planner", phase := some "planning",
        iteration_count := some 0, review_status := some "pending",
        issues_found := some [] }
  else if state.phase = "planning" then
    if state.plan.isSome then
      { next := "Coder", phase := some "coding" }
    else
      { next := "FINISH", phase := some "done" }
  else if state.phase = "coding" then
    { next := "Reviewer", phase := some "reviewing", review_status := some "pending" }
  else if state.phase = "reviewing" then
    if state.review_status = "needs_fixes" then
      { next := "Coder", phase := some "coding",
        iteration_count := some (state.iteration_count + 1) }
    else if state.review_status = "passed" then
      { next := "FINISH", phase := some "done" }
    else if state.iteration_count > 0 then
      { next := "FINISH", phase := some "done" }
    else
      { next := "Reviewer", phase := some "reviewing",
        iteration_count := some (state.iteration_count + 1) }
  else if state.phase = "done" then
    { next := "FINISH" }
  else
    { next := "Planner", phase := some "planning" }

/-- Applying a supervisor patch to the state, as LangGraph does: a key present
in the patch overwrites the state field, absent keys leave it unchanged.
Supervisor patches never carry messages, so `messages` is untouched. -/
def applyPatch (s : AgentState) (p : Patch) : AgentState :=
  { s with
    phase := p.phase.getD s.phase
    plan := match p.plan with
            | some pl => pl
            | none => s.plan
    iteration_count := p.iteration_count.getD s.iteration_count
    review_status := p.review_status.getD s.review_status
    issues_found := p.issues_found.getD s.issues_found }

/-- The phase/plan consistency predicate of the spec: a non-null plan only in
the coding, reviewing or done phase. -/
def planPhaseConsistent (s : AgentState) : Prop :=
  s.plan ≠ none → (s.phase = "coding" ∨ s.phase = "reviewing" ∨ s.phase = "done")

instance (s : AgentState) : Decidable (planPhaseConsistent s) := by
  unfold planPhaseConsistent
  infer_instance

/-- A human message with the given content. -/
def userMsg (content : String) : Message :=
  { kind := MsgKind.human, content := content }

/-- An assistant message with the given content. -/
def assistantMsg (content : String) : Message :=
  { kind := MsgKind.ai, content := content }

/-- A small concrete plan used to instantiate theorems at concrete states. -/
def examplePlan : Plan :=
  { tasks := [{ id := 1, description := "create the entry file" }],
    summary := "small demo plan" }

/-- C1: for every orchestration state with `iteration_count >= max_iterations`,
`supervisor_node` returns `FINISH` with `phase = done`, unconditionally —
this is the first branch, evaluated before any other rule. -/
theorem C1_max_iterations_forces_finish (s : AgentState)
    (h : s.max_iterations ≤ s.iteration_count) :
    supervisor_node s = { next := "FINISH", phase := some "done" } := by
  unfold supervisor_node
  rw [if_pos h]

/-- Witness for C1: the cap fires even mid-feedback-loop, in the reviewing
phase with a `needs_fixes` verdict waiting to be acted on. -/
theorem C1_max_iterations_forces_finish_witness :
    supervisor_node
      { messages := [assistantMsg "review output"], phase := "reviewing",
        plan := some examplePlan, review_status := "needs_fixes",
        iteration_count := 15, max_iterations := 15 }
      = { next := "FINISH", phase := some "done" } :=
  C1_max_iterations_forces_finish _ (by decide)

/-- C2 counterexample: a state in the reviewing phase whose review status is
still `pending` (a first parse failure) but whose `iteration_count` is `1`
because one `needs_fixes` feedback round already happened.  The supervisor
forces `FINISH` immediately instead of routing back to the Reviewer once. -/
theorem C2_counterexample :
    supervisor_node
        { messages := [assistantMsg "unparseable review"], phase := "reviewing",
          plan := some examplePlan, review_status := "pending",
          iteration_count := 1, max_iterations := 15 }
      = { next := "FINISH", phase := some "done" } ∧
    (supervisor_node
        { messages := [assistantMsg "unparseable review"], phase := "reviewing",
          plan := some examplePlan, review_status := "pending",
          iteration_count := 1, max_iterations := 15 }).next ≠ "Reviewer" := by
  constructor
  · decide
  · decide

/-- C2 (amended): in the reviewing phase with `review_status` still `pending`
(below the cap, no fresh user message), the supervisor routes back to the
Reviewer with `iteration_count + 1` exactly when `iteration_count = 0`;
whenever `iteration_count > 0` — whether from an earlier parse-failure retry
or from `needs_fixes` feedback rounds — it forces `FINISH` with `phase=done`. -/
theorem C2_pending_retry_only_at_iteration_zero (s : AgentState)
    (hphase : s.phase = "reviewing") (hrs : s.review_status = "pending")
    (huser : isLastMessageFromUser s.messages = false)
    (hic : s.iteration_count < s.max_iterations) :
    supervisor_node s =
      if s.iteration_count = 0 then
        { next := "Reviewer", phase := some "reviewing",
          iteration_count := some (s.iteration_count + 1) }
      else
        { next := "FINISH", phase := some "done" } := by
  have h1 : ¬ (s.max_iterations ≤ s.iteration_count) := by omega
  rcases Nat.eq_zero_or_pos s.iteration_count with h0 | h0
  · have h2 : s.max_iterations ≠ 0 := by omega
    simp [supervisor_node, hphase, hrs, huser, h1, h0, h2]
  · have hne : s.iteration_count ≠ 0 := by omega
    simp [supervisor_node, hphase, hrs, huser, h1, h0, hne]

/-- Witness for C2 (amended): at `iteration_count = 0` the pending verdict is
retried with the Reviewer and the counter incremented to 1. -/
theorem C2_pending_retry_only_at_iteration_zero_witness :
    supervisor_node
        { messages := [assistantMsg "unparseable review"], phase := "reviewing",
          plan := some examplePlan, review_status := "pending",
          iteration_count := 0, max_iterations := 15 }
      = { next := "Reviewer", phase := some "reviewing", iteration_count := some 1 } := by
  have h := C2_pending_retry_only_at_iteration_zero
    { messages := [assistantMsg "unparseable review"], phase := "reviewing",
      plan := some examplePlan, review_status := "pending",
      iteration_count := 0, max_iterations := 15 }
    (by decide) (by decide) (by decide) (by decide)
  simpa using h

/-- C3 counterexample: a reachable-shaped state in the coding phase with a
plan, whose most recent message is a follow-up user message.  The supervisor
decision preserves the plan but sends `phase` back to `planning`, violating
the invariant `plan != null ⟹ phase ∈ {coding, reviewing, done}`. -/
theorem C3_counterexample :
    planPhaseConsistent
      { messages := [userMsg "build a todo app", assistantMsg "done",
                     userMsg "now fix the styling"],
        phase := "coding", plan := some examplePlan,
        iteration_count := 0, max_iterations := 15 } ∧
    ¬ planPhaseConsistent
        (applyPatch
          { messages := [userMsg "build a todo app", assistantMsg "done",
                         userMsg "now fix the styling"],
            phase := "coding", plan := some examplePlan,
            iteration_count := 0, max_iterations := 15 }
          (supervisor_node
            { messages := [userMsg "build a todo app", assistantMsg "done",
                           userMsg "now fix the styling"],
              phase := "coding", plan := some examplePlan,
              iteration_count := 0, max_iterations := 15 })) := by
  constructor
  · decide
  · decide

/-- C3 (amended): every supervisor decision preserves the invariant
`plan != null ⟹ phase ∈ {coding, reviewing, done}` — except the
follow-up-user-message branch, which deliberately preserves the plan while
resetting `phase` to `planning`.  The hypothesis excludes exactly that branch:
if the most recent message is user input, it is either the very first user
message (where the plan is cleared) or the iteration cap has been reached
(where the cap stop fires first). -/
theorem C3_supervisor_preserves_plan_phase_consistency (s : AgentState)
    (hP : planPhaseConsistent s)
    (huser : isLastMessageFromUser s.messages = true →
      countUserMessages s.messages = 1 ∨ s.max_iterations ≤ s.iteration_count) :
    planPhaseConsistent (applyPatch s (supervisor_node s)) := by
  unfold supervisor_node
  split_ifs with h1 h2 h3 h4 h5 h6 h7 h8 h9 h10 h11 <;>
    simp_all [applyPatch, planPhaseConsistent]

/-- Witness for C3 (amended): a consistent state in the reviewing phase with a
`needs_fixes` verdict stays consistent after the supervisor routes back to the
Coder. -/
theorem C3_supervisor_preserves_plan_phase_consistency_witness :
    planPhaseConsistent
      (applyPatch
        { messages := [userMsg "build a todo app", assistantMsg "review done"],
          phase := "reviewing", plan := some examplePlan,
          review_status := "needs_fixes", iteration_count := 2, max_iterations := 15 }
        (supervisor_node
          { messages := [userMsg "build a todo app", assistantMsg "review done"],
            phase := "reviewing", plan := some examplePlan,
            review_status := "needs_fixes", iteration_count := 2, max_iterations := 15 })) :=
  C3_supervisor_preserves_plan_phase_consistency _ (by decide) (by decide)

/-- C7 counterexample: a state whose most recent message is new user input but
whose `iteration_count` has reached the cap.  The supervisor returns `FINISH`
instead of routing to the Planner, so the iteration-cap safety stop is not
recoverable by new input alone while the persisted counter is at the cap. -/
theorem C7_counterexample :
    supervisor_node
        { messages := [userMsg "please fix the remaining bug"], phase := "done",
          plan := some examplePlan, iteration_count := 15, max_iterations := 15 }
      = { next := "FINISH", phase := some "done" } ∧
    (supervisor_node
        { messages := [userMsg "please fix the remaining bug"], phase := "done",
          plan := some examplePlan, iteration_count := 15, max_iterations := 15 }).next
      ≠ "Planner" := by
  constructor
  · decide
  · decide

/-- C7 (amended): for every state whose most recent message is user input and
whose `iteration_count` is still below `max_iterations`, the supervisor routes
to the Planner and resets `review_status` to pending, `issues_found` to `[]`
and `iteration_count` to 0; the plan is cleared exactly on the very first user
message and preserved (absent from the patch) on follow-ups. -/
theorem C7_user_message_routes_to_planner (s : AgentState)
    (huser : isLastMessageFromUser s.messages = true)
    (hic : s.iteration_count < s.max_iterations) :
    supervisor_node s =
      if countUserMessages s.messages = 1 then
        { next := "Planner", phase := some "planning", plan := some none,
          iteration_count := some 0, review_status := some "pending",
          issues_found := some [] }
      else
        { next := "Planner", phase := some "planning",
          iteration_count := some 0, review_status := some "pending",
          issues_found := some [] } := by
  have h1 : ¬ (s.max_iterations ≤ s.iteration_count) := by omega
  by_cases hc : countUserMessages s.messages = 1 <;>
    simp [supervisor_node, huser, h1, hc]

/-- Witness for C7 (amended): a follow-up user message (two human messages in
the log) routes to the Planner with the resets but without clearing the plan. -/
theorem C7_user_message_routes_to_planner_witness :
    supervisor_node
        { messages := [userMsg "build a todo app", assistantMsg "done",
                       userMsg "now fix the styling"],
          phase := "done", plan := some examplePlan,
          iteration_count := 4, max_iterations := 15 }
      = { next := "Planner", phase := some "planning",
          iteration_count := some 0, review_status := some "pending",
          issues_found := some [] } := by
  have h := C7_user_message_routes_to_planner
    { messages := [userMsg "build a todo app", assistantMsg "done",
                   userMsg "now fix the styling"],
      phase := "done", plan := some examplePlan,
      iteration_count := 4, max_iterations := 15 }
    (by decide) (by decide)
  simpa using h

/-- The three shapes a reviewer turn can leave `review_status` in: a parsed
`passed` or `needs_fixes` verdict, or `pending` (unparseable output, or the
forced-pending of the verification-tool gate). -/
inductive Verdict where
  | passed
  | needs_fixes
  | pending
deriving DecidableEq, Repr

/-- The `review_status` string a verdict produces. -/
def verdictStr : Verdict → String
  | Verdict.passed => "passed"
  | Verdict.needs_fixes => "needs_fixes"
  | Verdict.pending => "pending"

/-- Oracle for the parts of a run supplied by the external LLM workers
(spec §6, worker invocation boundary): whether the planner submits a plan,
the successive reviewer verdicts, and the issues each reviewer turn reports. -/
structure Oracle where
  plannerPlan : Option Plan
  verdicts : Nat → Verdict
  issuesAt : Nat → List String

/-- The state patch a worker turn applies, abstracted per the worker contract
of `graph.py` `worker_node`: every worker appends (at least) one assistant
message; the Planner may additionally set `plan`; the Reviewer sets
`review_status` from its (oracle-modelled) verdict and `issues_found` when
it reports issues.  Returns the new state and the next verdict index. -/
def applyWorker (o : Oracle) (name : String) (s : AgentState) (vi : Nat) :
    AgentState × Nat :=
  if name = "Planner" then
    ({ s with messages := s.messages ++ [assistantMsg "planner turn"],
              plan := match o.plannerPlan with
                      | some p => some p
                      | none => s.plan }, vi)
  else if name = "Coder" then
    ({ s with messages := s.messages ++ [assistantMsg "coder turn"] }, vi)
  else
    ({ s with messages := s.messages ++ [assistantMsg "reviewer turn"],
              review_status := verdictStr (o.verdicts vi),
              issues_found := if o.issuesAt vi = [] then s.issues_found
                              else o.issuesAt vi }, vi + 1)

/-- Fuel-bounded orchestration loop: one unit of fuel is one supervisor turn
(the graph edge Supervisor → worker → Supervisor).  Returns `true` when the
supervisor reaches `FINISH` within the given number of turns. -/
def runTurns (o : Oracle) : Nat → AgentState → Nat → Bool
  | 0, _, _ => false
  | fuel + 1, s, vi =>
    if (supervisor_node s).next = "FINISH" then true
    else
      runTurns o fuel
        (applyWorker o (supervisor_node s).next (applyPatch s (supervisor_node s)) vi).1
        (applyWorker o (supervisor_node s).next (applyPatch s (supervisor_node s)) vi).2

lemma lastUser_append_ai (l : List Message) (c : String) :
    isLastMessageFromUser (l ++ [assistantMsg c]) = false := by
  simp [isLastMessageFromUser, assistantMsg]

lemma sup_cap (s : AgentState) (h : s.max_iterations ≤ s.iteration_count) :
    supervisor_node s = { next := "FINISH", phase := some "done" } := by
  unfold supervisor_node
  rw [if_pos h]

lemma sup_user_first (s : AgentState) (h1 : ¬ s.max_iterations ≤ s.iteration_count)
    (h2 : isLastMessageFromUser s.messages = true)
    (h3 : countUserMessages s.messages = 1) :
    supervisor_node s =
      { next := "Planner", phase := some "planning", plan := some none,
        iteration_count := some 0, review_status := some "pending",
        issues_found := some [] } := by
  simp [supervisor_node, h1, h2, h3]

lemma sup_user_follow (s : AgentState) (h1 : ¬ s.max_iterations ≤ s.iteration_count)
    (h2 : isLastMessageFromUser s.messages = true)
    (h3 : countUserMessages s.messages ≠ 1) :
    supervisor_node s =
      { next := "Planner", phase := some "planning",
        iteration_count := some 0, review_status := some "pending",
        issues_found := some [] } := by
  simp [supervisor_node, h1, h2, h3]

lemma sup_planning_some (s : AgentState) (h1 : ¬ s.max_iterations ≤ s.iteration_count)
    (h2 : isLastMessageFromUser s.messages = false) (h3 : s.phase = "planning")
    (h4 : s.plan.isSome) :
    supervisor_node s = { next := "Coder", phase := some "coding" } := by
  simp [supervisor_node, h1, h2, h3, h4]

lemma sup_planning_none (s : AgentState) (h1 : ¬ s.max_iterations ≤ s.iteration_count)
    (h2 : isLastMessageFromUser s.messages = false) (h3 : s.phase = "planning")
    (h4 : s.plan = none) :
    supervisor_node s = { next := "FINISH", phase := some "done" } := by
  simp [supervisor_node, h1, h2, h3, h4]

lemma sup_coding (s : AgentState) (h1 : ¬ s.max_iterations ≤ s.iteration_count)
    (h2 : isLastMessageFromUser s.messages = false) (h3 : s.phase = "coding") :
    supervisor_node s =
      { next := "Reviewer", phase := some "reviewing",
        review_status := some "pending" } := by
  simp [supervisor_node, h1, h2, h3]

lemma sup_rev_nf (s : AgentState) (h1 : ¬ s.max_iterations ≤ s.iteration_count)
    (h2 : isLastMessageFromUser s.messages = false) (h3 : s.phase = "reviewing")
    (h4 : s.review_status = "needs_fixes") :
    supervisor_node s =
      { next := "Coder", phase := some "coding",
        iteration_count := some (s.iteration_count + 1) } := by
  simp [supervisor_node, h1, h2, h3, h4]

lemma sup_rev_passed (s : AgentState) (h1 : ¬ s.max_iterations ≤ s.iteration_count)
    (h2 : isLastMessageFromUser s.messages = false) (h3 : s.phase = "reviewing")
    (h4 : s.review_status = "passed") :
    supervisor_node s = { next := "FINISH", phase := some "done" } := by
  simp [supervisor_node, h1, h2, h3, h4]

lemma sup_rev_pending_pos (s : AgentState) (h1 : ¬ s.max_iterations ≤ s.iteration_count)
    (h2 : isLastMessageFromUser s.messages = false) (h3 : s.phase = "reviewing")
    (h4 : s.review_status = "pending") (h5 : 0 < s.iteration_count) :
    supervisor_node s = { next := "FINISH", phase := some "done" } := by
  simp [supervisor_node, h1, h2, h3, h4, h5]

lemma sup_rev_pending_zero (s : AgentState) (h1 : ¬ s.max_iterations ≤ s.iteration_count)
    (h2 : isLastMessageFromUser s.messages = false) (h3 : s.phase = "reviewing")
    (h4 : s.review_status = "pending") (h5 : s.iteration_count = 0) :
    supervisor_node s =
      { next := "Reviewer", phase := some "reviewing",
        iteration_count := some (s.iteration_count + 1) } := by
  have h6 : ¬ s.max_iterations = 0 := by omega
  simp [supervisor_node, h1, h2, h3, h4, h5, h6]

lemma runTurns_true_of_finish (o : Oracle) (fuel : Nat) (s : AgentState) (vi : Nat)
    (h : (supervisor_node s).next = "FINISH") :
    runTurns o (fuel + 1) s vi = true := by
  rw [runTurns, if_pos h]

lemma runTurns_mono (o : Oracle) :
    ∀ (g f : Nat) (s : AgentState) (vi : Nat),
      f ≤ g → runTurns o f s vi = true → runTurns o g s vi = true := by
  intro g
  induction g with
  | zero =>
    intro f s vi hle h
    have : f = 0 := by omega
    subst this
    exact h
  | succ g ih =>
    intro f s vi hle h
    match f, h with
    | 0, h => simp [runTurns] at h
    | f + 1, h =>
      rw [runTurns] at h ⊢
      by_cases hf : (supervisor_node s).next = "FINISH"
      · rw [if_pos hf]
      · rw [if_neg hf] at h ⊢
        exact ih f _ _ (by omega) h

lemma step_coding (o : Oracle) (fuel : Nat) (s : AgentState) (vi : Nat)
    (h1 : ¬ s.max_iterations ≤ s.iteration_count)
    (h2 : isLastMessageFromUser s.messages = false) (h3 : s.phase = "coding") :
    runTurns o (fuel + 1) s vi =
      runTurns o fuel
        { s with phase := "reviewing",
                 messages := s.messages ++ [assistantMsg "reviewer turn"],
                 review_status := verdictStr (o.verdicts vi),
                 issues_found := if o.issuesAt vi = [] then s.issues_found
                                 else o.issuesAt vi }
        (vi + 1) := by
  rw [runTurns, sup_coding s h1 h2 h3]
  rfl

lemma step_rev_nf (o : Oracle) (fuel : Nat) (s : AgentState) (vi : Nat)
    (h1 : ¬ s.max_iterations ≤ s.iteration_count)
    (h2 : isLastMessageFromUser s.messages = false) (h3 : s.phase = "reviewing")
    (h4 : s.review_status = "needs_fixes") :
    runTurns o (fuel + 1) s vi =
      runTurns o fuel
        { s with phase := "coding",
                 iteration_count := s.iteration_count + 1,
                 messages := s.messages ++ [assistantMsg "coder turn"] }
        vi := by
  rw [runTurns, sup_rev_nf s h1 h2 h3 h4]
  rfl

lemma step_rev_pending_zero (o : Oracle) (fuel : Nat) (s : AgentState) (vi : Nat)
    (h1 : ¬ s.max_iterations ≤ s.iteration_count)
    (h2 : isLastMessageFromUser s.messages = false) (h3 : s.phase = "reviewing")
    (h4 : s.review_status = "pending") (h5 : s.iteration_count = 0) :
    runTurns o (fuel + 1) s vi =
      runTurns o fuel
        { s with phase := "reviewing",
                 iteration_count := s.iteration_count + 1,
                 messages := s.messages ++ [assistantMsg "reviewer turn"],
                 review_status := verdictStr (o.verdicts vi),
                 issues_found := if o.issuesAt vi = [] then s.issues_found
                                 else o.issuesAt vi }
        (vi + 1) := by
  rw [runTurns, sup_rev_pending_zero s h1 h2 h3 h4 h5]
  rfl

lemma step_user_first (o : Oracle) (fuel : Nat) (s : AgentState) (vi : Nat)
    (h1 : ¬ s.max_iterations ≤ s.iteration_count)
    (h2 : isLastMessageFromUser s.messages = true)
    (h3 : countUserMessages s.messages = 1) :
    runTurns o (fuel + 1) s vi =
      runTurns o fuel
        { s with phase := "planning",
                 plan := match o.plannerPlan with
                         | some p => some p
                         | none => none,
                 iteration_count := 0,
                 review_status := "pending",
                 issues_found := [],
                 messages := s.messages ++ [assistantMsg "planner turn"] }
        vi := by
  rw [runTurns, sup_user_first s h1 h2 h3]
  rfl

lemma step_user_follow (o : Oracle) (fuel : Nat) (s : AgentState) (vi : Nat)
    (h1 : ¬ s.max_iterations ≤ s.iteration_count)
    (h2 : isLastMessageFromUser s.messages = true)
    (h3 : countUserMessages s.messages ≠ 1) :
    runTurns o (fuel + 1) s vi =
      runTurns o fuel
        { s with phase := "planning",
                 plan := match o.plannerPlan with
                         | some p => some p
                         | none => s.plan,
                 iteration_count := 0,
                 review_status := "pending",
                 issues_found := [],
                 messages := s.messages ++ [assistantMsg "planner turn"] }
        vi := by
  rw [runTurns, sup_user_follow s h1 h2 h3]
  rfl

lemma step_planning_some (o : Oracle) (fuel : Nat) (s : AgentState) (vi : Nat)
    (h1 : ¬ s.max_iterations ≤ s.iteration_count)
    (h2 : isLastMessageFromUser s.messages = false) (h3 : s.phase = "planning")
    (h4 : s.plan.isSome) :
    runTurns o (fuel + 1) s vi =
      runTurns o fuel
        { s with phase := "coding",
                 messages := s.messages ++ [assistantMsg "coder turn"] }
        vi := by
  rw [runTurns, sup_planning_some s h1 h2 h3 h4]
  rfl

lemma run_cap (o : Oracle) (fuel : Nat) (s : AgentState) (vi : Nat)
    (h : s.max_iterations ≤ s.iteration_count) :
    runTurns o (fuel + 1) s vi = true :=
  runTurns_true_of_finish o fuel s vi (by rw [sup_cap s h])

lemma run_user_first (o : Oracle) (fuel : Nat) (s : AgentState) (vi : Nat)
    (h1 : ¬ s.max_iterations ≤ s.iteration_count)
    (h2 : isLastMessageFromUser s.messages = true)
    (h3 : countUserMessages s.messages = 1)
    (hnext : runTurns o fuel
      { s with phase := "planning",
               plan := match o.plannerPlan with
                       | some p => some p
                       | none => none,
               iteration_count := 0,
               review_status := "pending",
               issues_found := [],
               messages := s.messages ++ [assistantMsg "planner turn"] } vi = true) :
    runTurns o (fuel + 1) s vi = true := by
  rw [step_user_first o fuel s vi h1 h2 h3]
  exact hnext

lemma run_user_follow (o : Oracle) (fuel : Nat) (s : AgentState) (vi : Nat)
    (h1 : ¬ s.max_iterations ≤ s.iteration_count)
    (h2 : isLastMessageFromUser s.messages = true)
    (h3 : countUserMessages s.messages ≠ 1)
    (hnext : runTurns o fuel
      { s with phase := "planning",
               plan := match o.plannerPlan with
                       | some p => some p
                       | none => s.plan,
               iteration_count := 0,
               review_status := "pending",
               issues_found := [],
               messages := s.messages ++ [assistantMsg "planner turn"] } vi = true) :
    runTurns o (fuel + 1) s vi = true := by
  rw [step_user_follow o fuel s vi h1 h2 h3]
  exact hnext

lemma run_planning_some (o : Oracle) (fuel : Nat) (s : AgentState) (vi : Nat)
    (h1 : ¬ s.max_iterations ≤ s.iteration_count)
    (h2 : isLastMessageFromUser s.messages = false) (h3 : s.phase = "planning")
    (h4 : s.plan.isSome)
    (hnext : runTurns o fuel
      { s with phase := "coding",
               messages := s.messages ++ [assistantMsg "coder turn"] } vi = true) :
    runTurns o (fuel + 1) s vi = true := by
  rw [step_planning_some o fuel s vi h1 h2 h3 h4]
  exact hnext

lemma run_planning_none (o : Oracle) (fuel : Nat) (s : AgentState) (vi : Nat)
    (h1 : ¬ s.max_iterations ≤ s.iteration_count)
    (h2 : isLastMessageFromUser s.messages = false) (h3 : s.phase = "planning")
    (h4 : s.plan = none) :
    runTurns o (fuel + 1) s vi = true :=
  runTurns_true_of_finish o fuel s vi (by rw [sup_planning_none s h1 h2 h3 h4])

lemma run_coding (o : Oracle) (fuel : Nat) (s : AgentState) (vi : Nat)
    (h1 : ¬ s.max_iterations ≤ s.iteration_count)
    (h2 : isLastMessageFromUser s.messages = false) (h3 : s.phase = "coding")
    (hnext : runTurns o fuel
      { s with phase := "reviewing",
               messages := s.messages ++ [assistantMsg "reviewer turn"],
               review_status := verdictStr (o.verdicts vi),
               issues_found := if o.issuesAt vi = [] then s.issues_found
                               else o.issuesAt vi } (vi + 1) = true) :
    runTurns o (fuel + 1) s vi = true := by
  rw [step_coding o fuel s vi h1 h2 h3]
  exact hnext

lemma run_rev_passed (o : Oracle) (fuel : Nat) (s : AgentState) (vi : Nat)
    (h1 : ¬ s.max_iterations ≤ s.iteration_count)
    (h2 : isLastMessageFromUser s.messages = false) (h3 : s.phase = "reviewing")
    (h4 : s.review_status = "passed") :
    runTurns o (fuel + 1) s vi = true :=
  runTurns_true_of_finish o fuel s vi (by rw [sup_rev_passed s h1 h2 h3 h4])

lemma run_rev_pending_pos (o : Oracle) (fuel : Nat) (s : AgentState) (vi : Nat)
    (h1 : ¬ s.max_iterations ≤ s.iteration_count)
    (h2 : isLastMessageFromUser s.messages = false) (h3 : s.phase = "reviewing")
    (h4 : s.review_status = "pending") (h5 : 0 < s.iteration_count) :
    runTurns o (fuel + 1) s vi = true :=
  runTurns_true_of_finish o fuel s vi (by rw [sup_rev_pending_pos s h1 h2 h3 h4 h5])

lemma run_rev_nf (o : Oracle) (fuel : Nat) (s : AgentState) (vi : Nat)
    (h1 : ¬ s.max_iterations ≤ s.iteration_count)
    (h2 : isLastMessageFromUser s.messages = false) (h3 : s.phase = "reviewing")
    (h4 : s.review_status = "needs_fixes")
    (hnext : runTurns o fuel
      { s with phase := "coding",
               iteration_count := s.iteration_count + 1,
               messages := s.messages ++ [assistantMsg "coder turn"] } vi = true) :
    runTurns o (fuel + 1) s vi = true := by
  rw [step_rev_nf o fuel s vi h1 h2 h3 h4]
  exact hnext

lemma run_rev_pending_zero (o : Oracle) (fuel : Nat) (s : AgentState) (vi : Nat)
    (h1 : ¬ s.max_iterations ≤ s.iteration_count)
    (h2 : isLastMessageFromUser s.messages = false) (h3 : s.phase = "reviewing")
    (h4 : s.review_status = "pending") (h5 : s.iteration_count = 0)
    (hnext : runTurns o fuel
      { s with phase := "reviewing",
               iteration_count := s.iteration_count + 1,
               messages := s.messages ++ [assistantMsg "reviewer turn"],
               review_status := verdictStr (o.verdicts vi),
               issues_found := if o.issuesAt vi = [] then s.issues_found
                               else o.issuesAt vi } (vi + 1) = true) :
    runTurns o (fuel + 1) s vi = true := by
  rw [step_rev_pending_zero o fuel s vi h1 h2 h3 h4 h5]
  exact hnext

lemma runC (o : Oracle) (d : Nat) :
    ∀ (s : AgentState) (vi : Nat),
      s.phase = "coding" → isLastMessageFromUser s.messages = false →
      s.iteration_count + d = s.max_iterations →
      runTurns o (2 * d + 1) s vi = true := by
  induction d using Nat.strong_induction_on with
  | _ d ih =>
    intro s vi h3 h2 hcap
    by_cases hd : d = 0
    · subst hd
      exact run_cap o (2 * 0) s vi (by omega)
    · obtain ⟨e, rfl⟩ : ∃ e, d = e + 1 := ⟨d - 1, by omega⟩
      have h1 : ¬ s.max_iterations ≤ s.iteration_count := by omega
      rw [show 2 * (e + 1) + 1 = (2 * e + 1 + 1) + 1 by ring]
      refine run_coding o (2 * e + 1 + 1) s vi h1 h2 h3 ?_
      cases hv : o.verdicts vi with
      | passed =>
        exact run_rev_passed o (2 * e + 1) _ (vi + 1) h1
          (lastUser_append_ai _ _) rfl rfl
      | needs_fixes =>
        refine run_rev_nf o (2 * e + 1) _ (vi + 1) h1
          (lastUser_append_ai _ _) rfl rfl ?_
        exact ih e (by omega) _ (vi + 1) rfl (lastUser_append_ai _ _)
          (by show s.iteration_count + 1 + e = s.max_iterations; omega)
      | pending =>
        by_cases hz : s.iteration_count = 0
        · refine run_rev_pending_zero o (2 * e + 1) _ (vi + 1) h1
            (lastUser_append_ai _ _) rfl rfl hz ?_
          by_cases he : e = 0
          · subst he
            exact run_cap o (2 * 0) _ (vi + 1 + 1)
              (by show s.max_iterations ≤ s.iteration_count + 1; omega)
          · cases hv2 : o.verdicts (vi + 1) with
            | passed =>
              exact run_rev_passed o (2 * e) _ (vi + 1 + 1)
                (by show ¬ s.max_iterations ≤ s.iteration_count + 1; omega)
                (lastUser_append_ai _ _) rfl rfl
            | needs_fixes =>
              refine run_rev_nf o (2 * e) _ (vi + 1 + 1)
                (by show ¬ s.max_iterations ≤ s.iteration_count + 1; omega)
                (lastUser_append_ai _ _) rfl rfl ?_
              refine runTurns_mono o (2 * e) (2 * (e - 1) + 1) _ (vi + 1 + 1)
                (by omega) ?_
              exact ih (e - 1) (by omega) _ (vi + 1 + 1) rfl (lastUser_append_ai _ _)
                (by show s.iteration_count + 1 + 1 + (e - 1) = s.max_iterations; omega)
            | pending =>
              exact run_rev_pending_pos o (2 * e) _ (vi + 1 + 1)
                (by show ¬ s.max_iterations ≤ s.iteration_count + 1; omega)
                (lastUser_append_ai _ _) rfl rfl
                (by show 0 < s.iteration_count + 1; omega)
        · exact run_rev_pending_pos o (2 * e + 1) _ (vi + 1) h1
            (lastUser_append_ai _ _) rfl rfl (by show 0 < s.iteration_count; omega)

/-- An oracle whose reviewer rejects every round with `needs_fixes`. -/
def allNeedsFixes : Oracle :=
  { plannerPlan := some examplePlan,
    verdicts := fun _ => Verdict.needs_fixes,
    issuesAt := fun _ => ["styling issue in entry file"] }

/-- C5 counterexample: with `max_iterations = 3` the claimed bound allows
`max_iterations + 2 = 5` turns, but after 5 supervisor turns (user → Planner,
planning → Coder, coding → Reviewer, needs_fixes → Coder, coding → Reviewer)
the run started by a single user message has not reached `FINISH`. -/
theorem C5_counterexample :
    runTurns allNeedsFixes (3 + 2)
        { messages := [userMsg "build a todo app"], max_iterations := 3 } 0
      = false := by
  decide

/-- C5 (amended): for any sequence of reviewer verdicts (passed, needs_fixes
or unparseable/pending), any planner behaviour and any reported issues, the
orchestrator started from a state whose most recent message is a single new
user message reaches `FINISH` within `2 * max_iterations + 3` supervisor
turns — it does terminate, but the spec's `max_iterations + 2` bound is too
small because each feedback iteration costs two supervisor turns. -/
theorem C5_finish_within_bounded_turns (o : Oracle) (s : AgentState)
    (huser : isLastMessageFromUser s.messages = true) :
    runTurns o (2 * s.max_iterations + 3) s 0 = true := by
  by_cases hcap : s.max_iterations ≤ s.iteration_count
  · rw [show 2 * s.max_iterations + 3 = (2 * s.max_iterations + 2) + 1 by ring]
    exact run_cap o _ s 0 hcap
  · rw [show 2 * s.max_iterations + 3 = (2 * s.max_iterations + 1 + 1) + 1 by ring]
    have h1 : ¬ s.max_iterations ≤ (0 : Nat) := by omega
    by_cases hcu : countUserMessages s.messages = 1
    · refine run_user_first o (2 * s.max_iterations + 1 + 1) s 0 hcap huser hcu ?_
      cases hpp : o.plannerPlan with
      | some p =>
        refine run_planning_some o (2 * s.max_iterations + 1) _ 0
          (by show ¬ s.max_iterations ≤ 0; omega)
          (lastUser_append_ai _ _) rfl rfl ?_
        exact runC o s.max_iterations _ 0 rfl (lastUser_append_ai _ _)
          (by show 0 + s.max_iterations = s.max_iterations; omega)
      | none =>
        exact run_planning_none o (2 * s.max_iterations + 1) _ 0
          (by show ¬ s.max_iterations ≤ 0; omega)
          (lastUser_append_ai _ _) rfl rfl
    · refine run_user_follow o (2 * s.max_iterations + 1 + 1) s 0 hcap huser hcu ?_
      cases hpp : o.plannerPlan with
      | some p =>
        refine run_planning_some o (2 * s.max_iterations + 1) _ 0
          (by show ¬ s.max_iterations ≤ 0; omega)
          (lastUser_append_ai _ _) rfl rfl ?_
        exact runC o s.max_iterations _ 0 rfl (lastUser_append_ai _ _)
          (by show 0 + s.max_iterations = s.max_iterations; omega)
      | none =>
        cases hsp : s.plan with
        | some q =>
          refine run_planning_some o (2 * s.max_iterations + 1) _ 0
            (by show ¬ s.max_iterations ≤ 0; omega)
            (lastUser_append_ai _ _) rfl rfl ?_
          exact runC o s.max_iterations _ 0 rfl (lastUser_append_ai _ _)
            (by show 0 + s.max_iterations = s.max_iterations; omega)
        | none =>
          exact run_planning_none o (2 * s.max_iterations + 1) _ 0
            (by show ¬ s.max_iterations ≤ 0; omega)
            (lastUser_append_ai _ _) rfl rfl

/-- Witness for C5 (amended): the all-needs_fixes adversarial run with
`max_iterations = 3` does reach `FINISH` within `2 * 3 + 3 = 9` turns. -/
theorem C5_finish_within_bounded_turns_witness :
    runTurns allNeedsFixes (2 * 3 + 3)
        { messages := [userMsg "build a todo app"], max_iterations := 3 } 0
      = true :=
  C5_finish_within_bounded_turns allNeedsFixes
    { messages := [userMsg "build a todo app"], max_iterations := 3 } (by decide)

/-- Python exceptions relevant to the tool framework: the distinguished
`PlanSubmittedException` control-flow signal carrying its `Plan` payload
(`src/tools/planning.py`), and any ordinary exception with its message. -/
inductive PyExc where
  | planSubmitted (plan : Plan)
  | other (msg : String)
deriving DecidableEq, Repr

/-- Outcome of running a Python callable: a returned string or a raised
exception. -/
inductive RawResult where
  | ok (s : String)
  | raises (e : PyExc)
deriving DecidableEq, Repr

/-- `SubmitPlanTool._run` (`src/tools/planning.py`): submitting a plan raises
`PlanSubmittedException(plan)` instead of returning a value. -/
def SubmitPlanTool_run (plan : Plan) : RawResult :=
  RawResult.raises (PyExc.planSubmitted plan)

/-- The `try/except/finally` body of `_execute` inside
`wrap_tool_with_confirmation` (`human_in_the_loop.py`): a normal return is
passed through, a `PlanSubmittedException` is re-raised as control flow, and
any other exception is normalized into the string result `"Error: <msg>"`
so the worker can read it and adapt. -/
def executeResult : RawResult → RawResult
  | RawResult.ok r => RawResult.ok r
  | RawResult.raises (PyExc.planSubmitted p) =>
      RawResult.raises (PyExc.planSubmitted p)
  | RawResult.raises (PyExc.other m) => RawResult.ok ("Error: " ++ m)

/-- Event types published on the event bus by the permission gate
(`publish_tool_event` calls in `human_in_the_loop.py`). -/
inductive EventType where
  | tool_started
  | tool_finished
  | tool_rejected
  | tool_confirmation_requested
deriving DecidableEq, Repr

/-- The human decision resuming a suspended approval: the `action` field of
the interrupt resume payload, with its optional `reason` / `pattern`. -/
inductive Decision where
  | approve
  | reject (reason : String)
  | allow_pattern (pattern : Option String)
  | unknown (action : String)
deriving DecidableEq, Repr

/-- Glob matching as used through `fnmatch.fnmatch`: `*` matches any run of
characters and `?` any single character, every other character matches
itself.  (The `[seq]` character classes of `fnmatch` are not used by this
repository's patterns and are treated as literal characters.)  Structured
with explicit fuel so it is structurally recursive; every recursive call
shortens `ps ++ cs`, so `ps.length + cs.length` fuel always suffices and the
out-of-fuel branch is unreachable from `globMatch`. -/
def globMatchAux : Nat → List Char → List Char → Bool
  | _, [], [] => true
  | _, [], _ :: _ => false
  | 0, _ :: _, _ => false
  | fuel + 1, '*' :: ps, [] => globMatchAux fuel ps []
  | fuel + 1, '*' :: ps, c :: cs =>
      globMatchAux fuel ps (c :: cs) || globMatchAux fuel ('*' :: ps) cs
  | _ + 1, '?' :: _, [] => false
  | fuel + 1, '?' :: ps, _ :: cs => globMatchAux fuel ps cs
  | _ + 1, _ :: _, [] => false
  | fuel + 1, p :: ps, c :: cs => (p = c) && globMatchAux fuel ps cs

/-- Glob match of a character list against a pattern list. -/
def globMatch (ps cs : List Char) : Bool :=
  globMatchAux (ps.length + cs.length) ps cs

/-- `fnmatch.fnmatch(name, pattern)` on a case-sensitive (posix) filesystem,
over the character lists of the two strings. -/
def fnmatch (name pattern : List Char) : Bool :=
  globMatch pattern name

/-- Removal of all trailing `)` characters (`str.rstrip(")")`). -/
def rstripParen (s : List Char) : List Char :=
  (s.reverse.dropWhile (fun c => c = ')')).reverse

/-- `PatternManager._match_pattern` (`human_in_the_loop.py`): a rule is either
a bare tool-name glob, or `ToolName(arg_pattern)` — split at the first `(`
with the trailing `)` stripped; for the latter the tool-name part must
glob-match, and the argument part matches everything when it is `*`, and
otherwise must occur (as `*argpat*`) in the stringified argument snapshot
`args_str = str(args)`.  Character lists are used throughout so every step
is kernel-computable. -/
def match_pattern (pattern tool_name args_str : String) : Bool :=
  let pcs := pattern.toList
  if ¬ pcs.contains '(' then
    fnmatch tool_name.toList pcs
  else
    let p_tool_name := pcs.takeWhile (fun c => c ≠ '(')
    let p_args := rstripParen (pcs.drop (p_tool_name.length + 1))
    if ¬ fnmatch tool_name.toList p_tool_name then false
    else if p_args = ['*'] then true
    else fnmatch args_str.toList ('*' :: (p_args ++ ['*']))

/-- `PatternManager.is_allowed`: some rule of the allow list matches. -/
def is_allowed (allow : List String) (tool_name args_str : String) : Bool :=
  allow.any (fun pattern => match_pattern pattern tool_name args_str)

/-- `PatternManager.add_pattern`: append the pattern to the allow list unless
it is already present (persistence of the file is outside this model). -/
def add_pattern (allow : List String) (pattern : String) : List String :=
  if pattern ∈ allow then allow else allow ++ [pattern]

/-- The observable outcome of one wrapped tool invocation: the events
published on the bus in order, whether execution suspended for human
approval, whether the underlying tool ran, the result handed back to the
worker, and the allow list after the call. -/
structure GateResult where
  events : List EventType
  interrupted : Bool
  tool_ran : Bool
  result : RawResult
  patterns_after : List String
deriving DecidableEq, Repr

/-- `wrap_tool_with_confirmation`'s `wrapped_func` (`human_in_the_loop.py`):
if an allow pattern matches the `(tool_name, args_snapshot)` pair the tool is
executed directly (`started`/`finished` events only); otherwise a
`confirmation_requested` event is emitted and execution suspends on an
interrupt until the human decision arrives: `approve` executes once,
`reject` emits a `rejected` event and returns a rejection message string
without running the tool, `allow_pattern` persists the new pattern and then
executes, and an unknown action returns an error string.  `raw` is the
outcome of the underlying `_run`; `decision` is the resume payload (used only
when the call suspends). -/
def wrap_tool (allow : List String) (tool_name args_str : String)
    (raw : RawResult) (decision : Decision) : GateResult :=
  if is_allowed allow tool_name args_str then
    { events := [EventType.tool_started, EventType.tool_finished],
      interrupted := false, tool_ran := true,
      result := executeResult raw, patterns_after := allow }
  else
    match decision with
    | Decision.approve =>
        { events := [EventType.tool_confirmation_requested,
                     EventType.tool_started, EventType.tool_finished],
          interrupted := true, tool_ran := true,
          result := executeResult raw, patterns_after := allow }
    | Decision.reject reason =>
        { events := [EventType.tool_confirmation_requested,
                     EventType.tool_rejected],
          interrupted := true, tool_ran := false,
          result := RawResult.ok
            (if reason ≠ "" then
              "Tool call " ++ tool_name ++ " rejected by user. Reason: " ++ reason
             else
              "Tool call " ++ tool_name ++ " rejected by user."),
          patterns_after := allow }
    | Decision.allow_pattern pat =>
        { events := [EventType.tool_confirmation_requested,
                     EventType.tool_started, EventType.tool_finished],
          interrupted := true, tool_ran := true,
          result := executeResult raw,
          patterns_after := match pat with
                            | some pt => add_pattern allow pt
                            | none => allow }
    | Decision.unknown a =>
        { events := [EventType.tool_confirmation_requested],
          interrupted := true, tool_ran := false,
          result := RawResult.ok ("Unknown decision action: " ++ a),
          patterns_after := allow }

/-- The worker's tool-call loop at the level of wrapped-call outcomes: calls
execute in order; a returned string is collected and the loop continues; a
raised exception terminates the loop immediately — no later call runs — and
propagates out of `agent_graph.invoke`. -/
def toolLoop : List RawResult → List String × Option PyExc
  | [] => ([], none)
  | RawResult.ok s :: rest => (s :: (toolLoop rest).1, (toolLoop rest).2)
  | RawResult.raises e :: _ => ([], some e)

/-- The state patch a planner turn returns (`worker_node` in `graph.py`):
new messages plus an optional plan. -/
structure WorkerPatch where
  messages : List Message
  plan : Option Plan
deriving DecidableEq, Repr

/-- Content of the synthetic confirmation message created when
`PlanSubmittedException` is caught (`worker_node` in `graph.py`). -/
def planSummaryText (p : Plan) : String :=
  "Plan submitted successfully with " ++ toString p.tasks.length ++
    " tasks. The Coder agent will now implement this plan."

/-- The `try/except PlanSubmittedException` around `agent_graph.invoke` in
`worker_node`: the plan signal is converted into the patch
`{plan: e.plan}` plus a single synthetic confirmation message; no exception
means the normal-completion path (messages and fallback plan extraction,
passed in here as `normalMessages`/`normalPlan`); any other exception
propagates uncaught. -/
def plannerCatch (loopExc : Option PyExc) (normalMessages : List Message)
    (normalPlan : Option Plan) : Except String WorkerPatch :=
  match loopExc with
  | some (PyExc.planSubmitted p) =>
      Except.ok { messages := [assistantMsg (planSummaryText p)], plan := some p }
  | some (PyExc.other m) => Except.error m
  | none => Except.ok { messages := normalMessages, plan := normalPlan }

lemma toolLoop_stops (e : PyExc) :
    ∀ (pre : List RawResult), (∀ r ∈ pre, ∃ s, r = RawResult.ok s) →
      ∀ (post : List RawResult),
        (toolLoop (pre ++ RawResult.raises e :: post)).1.length = pre.length ∧
        (toolLoop (pre ++ RawResult.raises e :: post)).2 = some e := by
  intro pre
  induction pre with
  | nil =>
    intro _ post
    simp [toolLoop]
  | cons r rest ih =>
    intro hpre post
    obtain ⟨s, rfl⟩ := hpre r (by simp)
    have h := ih (fun x hx => hpre x (by simp [hx])) post
    simp [toolLoop, h.1, h.2]

/-- C4: submitting a plan raises the distinguished termination signal carrying
the `Plan` payload; the permission gate re-raises that signal (while ordinary
exceptions are normalized into `"Error: ..."` string results); the tool loop
stops at the signal, so no tool call after the submission executes; and the
worker runtime converts it into the patch `{plan := the submitted plan}` plus
a single synthetic confirmation message. -/
theorem C4_plan_submission_stops_loop (p : Plan) (allow : List String)
    (args_str : String) (d : Decision) (pre post : List RawResult)
    (nm : List Message) (npl : Option Plan)
    (hallow : is_allowed allow "submit_plan" args_str = true)
    (hpre : ∀ r ∈ pre, ∃ s, r = RawResult.ok s) :
    SubmitPlanTool_run p = RawResult.raises (PyExc.planSubmitted p) ∧
    (wrap_tool allow "submit_plan" args_str (SubmitPlanTool_run p) d).result
      = RawResult.raises (PyExc.planSubmitted p) ∧
    (∀ m, executeResult (RawResult.raises (PyExc.other m))
      = RawResult.ok ("Error: " ++ m)) ∧
    (toolLoop (pre ++ RawResult.raises (PyExc.planSubmitted p) :: post)).1.length
      = pre.length ∧
    (toolLoop (pre ++ RawResult.raises (PyExc.planSubmitted p) :: post)).2
      = some (PyExc.planSubmitted p) ∧
    plannerCatch
        (toolLoop (pre ++ RawResult.raises (PyExc.planSubmitted p) :: post)).2
        nm npl
      = Except.ok { messages := [assistantMsg (planSummaryText p)],
                    plan := some p } := by
  have hloop := toolLoop_stops (PyExc.planSubmitted p) pre hpre post
  refine ⟨rfl, ?_, fun m => rfl, hloop.1, hloop.2, ?_⟩
  · simp [wrap_tool, hallow, SubmitPlanTool_run, executeResult]
  · rw [hloop.2]
    rfl

/-- Witness for C4: a concrete planner turn — one successful read, then the
plan submission, then one further queued call that never runs. -/
theorem C4_plan_submission_stops_loop_witness :
    SubmitPlanTool_run examplePlan
      = RawResult.raises (PyExc.planSubmitted examplePlan) ∧
    (wrap_tool ["submit_plan"] "submit_plan" "plan=demo"
        (SubmitPlanTool_run examplePlan) Decision.approve).result
      = RawResult.raises (PyExc.planSubmitted examplePlan) ∧
    (∀ m, executeResult (RawResult.raises (PyExc.other m))
      = RawResult.ok ("Error: " ++ m)) ∧
    (toolLoop ([RawResult.ok "read main file"] ++
        RawResult.raises (PyExc.planSubmitted examplePlan) ::
          [RawResult.ok "never executed"])).1.length
      = [RawResult.ok "read main file"].length ∧
    (toolLoop ([RawResult.ok "read main file"] ++
        RawResult.raises (PyExc.planSubmitted examplePlan) ::
          [RawResult.ok "never executed"])).2
      = some (PyExc.planSubmitted examplePlan) ∧
    plannerCatch
        (toolLoop ([RawResult.ok "read main file"] ++
          RawResult.raises (PyExc.planSubmitted examplePlan) ::
            [RawResult.ok "never executed"])).2
        [] none
      = Except.ok { messages := [assistantMsg (planSummaryText examplePlan)],
                    plan := some examplePlan } :=
  C4_plan_submission_stops_loop examplePlan ["submit_plan"] "plan=demo"
    Decision.approve [RawResult.ok "read main file"] [RawResult.ok "never executed"]
    [] none (by decide)
    (by intro r hr
        simp at hr
        exact ⟨"read main file", hr⟩)

/-- C8: when a tool call's name and argument snapshot match an allow pattern,
the gate executes the tool directly: no `confirmation_requested` event, no
suspension for approval — and since the allow list is unchanged by that path,
re-submitting the same call never prompts either. -/
theorem C8_allow_pattern_skips_confirmation (allow : List String)
    (tool_name args_str : String) (raw : RawResult) (d d₂ : Decision)
    (h : is_allowed allow tool_name args_str = true) :
    (wrap_tool allow tool_name args_str raw d).events
      = [EventType.tool_started, EventType.tool_finished] ∧
    EventType.tool_confirmation_requested ∉
      (wrap_tool allow tool_name args_str raw d).events ∧
    (wrap_tool allow tool_name args_str raw d).interrupted = false ∧
    (wrap_tool allow tool_name args_str raw d).tool_ran = true ∧
    (wrap_tool allow tool_name args_str raw d).patterns_after = allow ∧
    (wrap_tool (wrap_tool allow tool_name args_str raw d).patterns_after
        tool_name args_str raw d₂).interrupted = false ∧
    EventType.tool_confirmation_requested ∉
      (wrap_tool (wrap_tool allow tool_name args_str raw d).patterns_after
        tool_name args_str raw d₂).events := by
  simp [wrap_tool, h]

/-- Witness for C8: the spec's Scenario F — the pattern `shell(git *)` matches
the shell tool with a `git status` argument snapshot, so executing (and
re-submitting) the call emits only `started`/`finished`. -/
theorem C8_allow_pattern_skips_confirmation_witness :
    (wrap_tool ["shell(git *)"] "shell" "commands=git status"
        (RawResult.ok "clean tree") Decision.approve).events
      = [EventType.tool_started, EventType.tool_finished] ∧
    EventType.tool_confirmation_requested ∉
      (wrap_tool ["shell(git *)"] "shell" "commands=git status"
        (RawResult.ok "clean tree") Decision.approve).events ∧
    (wrap_tool ["shell(git *)"] "shell" "commands=git status"
        (RawResult.ok "clean tree") Decision.approve).interrupted = false ∧
    (wrap_tool ["shell(git *)"] "shell" "commands=git status"
        (RawResult.ok "clean tree") Decision.approve).tool_ran = true ∧
    (wrap_tool ["shell(git *)"] "shell" "commands=git status"
        (RawResult.ok "clean tree") Decision.approve).patterns_after
      = ["shell(git *)"] ∧
    (wrap_tool
        (wrap_tool ["shell(git *)"] "shell" "commands=git status"
          (RawResult.ok "clean tree") Decision.approve).patterns_after
        "shell" "commands=git status"
        (RawResult.ok "clean tree") Decision.approve).interrupted = false ∧
    EventType.tool_confirmation_requested ∉
      (wrap_tool
        (wrap_tool ["shell(git *)"] "shell" "commands=git status"
          (RawResult.ok "clean tree") Decision.approve).patterns_after
        "shell" "commands=git status"
        (RawResult.ok "clean tree") Decision.approve).events :=
  C8_allow_pattern_skips_confirmation ["shell(git *)"] "shell"
    "commands=git status" (RawResult.ok "clean tree")
    Decision.approve Decision.approve (by decide)

/-- C9: when the human decision is `reject`, the gate returns a rejection
message string as the tool result — it never raises — emits a `rejected`
event (after the `confirmation_requested` one), and does not execute the
underlying tool. -/
theorem C9_reject_returns_message_without_running (allow : List String)
    (tool_name args_str : String) (raw : RawResult) (reason : String)
    (h : is_allowed allow tool_name args_str = false) :
    (wrap_tool allow tool_name args_str raw (Decision.reject reason)).result
      = RawResult.ok
          (if reason ≠ "" then
            "Tool call " ++ tool_name ++ " rejected by user. Reason: " ++ reason
           else
            "Tool call " ++ tool_name ++ " rejected by user.") ∧
    (∀ e, (wrap_tool allow tool_name args_str raw (Decision.reject reason)).result
      ≠ RawResult.raises e) ∧
    (wrap_tool allow tool_name args_str raw (Decision.reject reason)).events
      = [EventType.tool_confirmation_requested, EventType.tool_rejected] ∧
    (wrap_tool allow tool_name args_str raw (Decision.reject reason)).tool_ran
      = false := by
  simp [wrap_tool, h]

/-- Witness for C9: rejecting a write with a reason; the worker receives the
rejection string as an ordinary tool result. -/
theorem C9_reject_returns_message_without_running_witness :
    (wrap_tool [] "write_file" "path=main.py"
        (RawResult.ok "would have written") (Decision.reject "not now")).result
      = RawResult.ok
          (if "not now" ≠ "" then
            "Tool call " ++ "write_file" ++ " rejected by user. Reason: " ++ "not now"
           else
            "Tool call " ++ "write_file" ++ " rejected by user.") ∧
    (∀ e, (wrap_tool [] "write_file" "path=main.py"
        (RawResult.ok "would have written") (Decision.reject "not now")).result
      ≠ RawResult.raises e) ∧
    (wrap_tool [] "write_file" "path=main.py"
        (RawResult.ok "would have written") (Decision.reject "not now")).events
      = [EventType.tool_confirmation_requested, EventType.tool_rejected] ∧
    (wrap_tool [] "write_file" "path=main.py"
        (RawResult.ok "would have written") (Decision.reject "not now")).tool_ran
      = false :=
  C9_reject_returns_message_without_running [] "write_file" "path=main.py"
    (RawResult.ok "would have written") "not now" (by decide)

/-- The reviewer's structured output model (`structured_output.py`,
`ReviewResult`): status, summary, files checked and issues found. -/
structure ReviewResult where
  status : String
  summary : String
  files_checked : List String
  issues : List String
deriving DecidableEq, Repr

/-- Substring test (`"X" in content` in Python), on character lists. -/
def containsSub (pat : List Char) : List Char → Bool
  | [] => pat.isEmpty
  | c :: cs => pat.isPrefixOf (c :: cs) || containsSub pat cs

/-- Splitting a character list at a separator character. -/
def splitOnChar (sep : Char) : List Char → List (List Char)
  | [] => [[]]
  | c :: cs =>
    if c = sep then [] :: splitOnChar sep cs
    else
      match splitOnChar sep cs with
      | [] => [[c]]
      | l :: ls => (c :: l) :: ls

/-- Whitespace characters `\s` of the Python regex can match inside a single
line (`\n` never occurs after splitting on it). -/
def isPySpace (c : Char) : Bool :=
  c = ' ' || c = '\t' || c = '\r' || c = '\x0b' || c = '\x0c'

/-- One line matched against the issue-extraction regex
`^\d+\.\s*(.+)$` (`re.findall` with `MULTILINE` in `worker_node`): leading
digits, a dot, then greedy-with-backtracking whitespace, and a non-empty
capture. -/
def parseNumberedLine (line : List Char) : Option (List Char) :=
  let digits := line.takeWhile Char.isDigit
  if digits.isEmpty then none
  else
    match line.drop digits.length with
    | '.' :: rest =>
      if rest.isEmpty then none
      else
        let ws := (rest.takeWhile isPySpace).length
        some (rest.drop (min ws (rest.length - 1)))
    | _ => none

/-- The numbered-list issue extraction of the legacy fallback parser. -/
def extractNumberedIssues (content : String) : List String :=
  (splitOnChar '\n' content.toList).filterMap
    (fun line => (parseNumberedLine line).map String.mk)

/-- The verdict-parsing loop of `worker_node` for the Reviewer (`graph.py`):
walk the messages most-recent-first, skip empty contents, try the structured
JSON parse (the `json.loads` / balanced-brace extraction / pydantic
validation pipeline, modelled by the `tryJson` parameter since it is the
`json` library boundary), and fall back to the legacy marker strings
`REVIEW: PASSED` / `REVIEW: NEEDS_FIXES` with numbered-list issue
extraction; if nothing matches, continue with the next older message, and
default to `pending` with no issues. -/
def parseReviewScan (tryJson : String → Option ReviewResult) :
    List Message → String × List String
  | [] => ("pending", [])
  | m :: rest =>
    if m.content = "" then parseReviewScan tryJson rest
    else
      match tryJson m.content with
      | some rr => (rr.status, rr.issues)
      | none =>
        if containsSub "REVIEW: PASSED".toList m.content.toList ||
            containsSub "REVIEW:PASSED".toList m.content.toList then
          ("passed", [])
        else if containsSub "REVIEW: NEEDS_FIXES".toList m.content.toList ||
            containsSub "REVIEW:NEEDS_FIXES".toList m.content.toList then
          ("needs_fixes", extractNumberedIssues m.content)
        else parseReviewScan tryJson rest

/-- The verification-capable tools the Reviewer is required to have invoked
(`verification_tools` in `worker_node`). -/
def VERIFICATION_TOOLS : List String := ["shell", "read_file", "list_files"]

/-- The warning message synthesized when the Reviewer ran no verification
tool. -/
def reviewerWarning : Message :=
  assistantMsg ("Reviewer Warning: You must execute verification tools " ++
    "(shell/read_file) to validate the implementation. Visual inspection " ++
    "is not sufficient. Please run build commands and check actual files.")

/-- The issue recorded when the Reviewer skipped verification. -/
def skippedVerificationIssue : String :=
  "Reviewer skipped verification tools. Must run shell commands or read files to validate."

/-- The dictionary a Reviewer turn returns. -/
structure ReviewerOutcome where
  messages : List Message
  review_status : String
  issues_found : Option (List String)

/-- Reviewer post-processing in `worker_node` (`graph.py`): collect the tool
call names of the turn's messages; if none of them is verification-capable,
force `review_status = "pending"`, append the warning message and record the
skipped-verification issue — before and regardless of any verdict parsing;
otherwise parse the verdict from the messages (most recent first) and attach
the issues only when non-empty. -/
def reviewer_post (tryJson : String → Option ReviewResult)
    (new_messages : List Message) : ReviewerOutcome :=
  let tool_calls_made := (new_messages.map Message.tool_calls).flatten
  let tools_used := tool_calls_made.filter
    (fun n => decide (n ∈ VERIFICATION_TOOLS))
  if tools_used.isEmpty then
    { messages := new_messages ++ [reviewerWarning],
      review_status := "pending",
      issues_found := some [skippedVerificationIssue] }
  else
    let r := parseReviewScan tryJson new_messages.reverse
    { messages := new_messages,
      review_status := r.1,
      issues_found := if r.2 ≠ [] then some r.2 else none }

/-- C6: if the Reviewer's turn invoked zero verification-capable tools, the
runtime forces `review_status = "pending"` and injects the warning message
and the skipped-verification issue — for every parser behaviour and every
claimed verdict in the message contents. -/
theorem C6_unverified_review_forced_pending
    (tryJson : String → Option ReviewResult) (msgs : List Message)
    (h : ∀ m ∈ msgs, ∀ n ∈ m.tool_calls, n ∉ VERIFICATION_TOOLS) :
    reviewer_post tryJson msgs =
      { messages := msgs ++ [reviewerWarning],
        review_status := "pending",
        issues_found := some [skippedVerificationIssue] } := by
  have hempty :
      (msgs.map Message.tool_calls).flatten.filter
        (fun n => decide (n ∈ VERIFICATION_TOOLS)) = [] := by
    rw [List.filter_eq_nil_iff]
    intro a ha
    rw [List.mem_flatten] at ha
    obtain ⟨l, hl, hal⟩ := ha
    rw [List.mem_map] at hl
    obtain ⟨m, hm, rfl⟩ := hl
    simpa using h m hm a hal
  simp [reviewer_post, hempty]

/-- Witness for C6: a reviewer message that claims `REVIEW: PASSED` but whose
only tool call was `web_search` is forced back to pending with the warning. -/
theorem C6_unverified_review_forced_pending_witness :
    reviewer_post (fun _ => none)
        [{ kind := MsgKind.ai, content := "REVIEW: PASSED",
           tool_calls := ["web_search"] }] =
      { messages := [{ kind := MsgKind.ai, content := "REVIEW: PASSED",
                       tool_calls := ["web_search"] }] ++ [reviewerWarning],
        review_status := "pending",
        issues_found := some [skippedVerificationIssue] } :=
  C6_unverified_review_forced_pending (fun _ => none)
    [{ kind := MsgKind.ai, content := "REVIEW: PASSED",
       tool_calls := ["web_search"] }]
    (by decide)

/-- A purely lexical POSIX path: whether it is anchored at the root, and its
segments (`Path.parts` without the anchor; `.` and empty segments are
dropped as `pathlib` does). -/
structure PurePath where
  absolute : Bool
  segments : List String
deriving DecidableEq, Repr

/-- `pathlib.Path(path_str)` as a lexical path. -/
def parsePath (s : String) : PurePath :=
  let cs := s.toList
  { absolute := cs.head? = some '/',
    segments := ((splitOnChar '/' cs).map String.mk).filter
      (fun seg => seg != "" && seg != ".") }

/-- Lexical elimination of `..` segments, as `Path.resolve` performs on a
symlink-free filesystem: `..` pops the last segment (staying at the root
when there is none), every other segment is appended. -/
def normalizeSegments (segs : List String) : List String :=
  segs.foldl (fun acc seg => if seg = ".." then acc.dropLast else acc ++ [seg]) []

/-- `Path.resolve()` of an already-absolute path on a symlink-free
filesystem: an absolute, `..`-free path. -/
def posixResolve (p : PurePath) : PurePath :=
  { absolute := true, segments := normalizeSegments p.segments }

/-- `resolve_workspace_path` (`src/utils/path.py`): join a relative input
onto the workspace root, resolve, and require — via
`resolved.relative_to(workspace_root)`, which on absolute paths succeeds
exactly when the root's parts are a prefix of the resolved parts — that the
result falls under the root, raising the access-denied `ValueError`
otherwise. -/
def joinUnderRoot (workspace_root p : PurePath) : PurePath :=
  if ¬ p.absolute then
    { absolute := workspace_root.absolute,
      segments := workspace_root.segments ++ p.segments }
  else p

def resolve_workspace_path (workspace_root : PurePath) (path_str : String) :
    Except String PurePath :=
  let resolved_path := posixResolve (joinUnderRoot workspace_root (parsePath path_str))
  let root_resolved := posixResolve workspace_root
  if root_resolved.segments.isPrefixOf resolved_path.segments then
    Except.ok resolved_path
  else
    Except.error ("Access denied: Path " ++ path_str ++ " is outside the workspace")

lemma mem_normalizeSegments_of_ne (segs : List String) :
    ∀ (acc : List String), ".." ∉ acc →
      ".." ∉ segs.foldl
        (fun acc seg => if seg = ".." then acc.dropLast else acc ++ [seg]) acc := by
  induction segs with
  | nil => intro acc hacc; exact hacc
  | cons seg rest ih =>
    intro acc hacc
    simp only [List.foldl_cons]
    by_cases hs : seg = ".."
    · rw [if_pos hs]
      exact ih _ (fun hmem => hacc (List.dropLast_subset _ hmem))
    · rw [if_neg hs]
      refine ih _ ?_
      intro hmem
      rcases List.mem_append.mp hmem with hmem | hmem
      · exact hacc hmem
      · simp at hmem
        exact hs hmem.symm

lemma normalizeSegments_no_dotdot (segs : List String) :
    ".." ∉ normalizeSegments segs :=
  mem_normalizeSegments_of_ne segs [] (by simp)

/-- C10: for every input path string, `resolve_workspace_path` either returns
an absolute, fully normalized (`..`-free) path whose segments extend the
resolved workspace root — i.e. a path under the root — or fails with the
access-denied error; it never returns a path outside the root. -/
theorem C10_resolve_stays_under_root (workspace_root : PurePath)
    (path_str : String) :
    (∀ p, resolve_workspace_path workspace_root path_str = Except.ok p →
      p.absolute = true ∧
      List.isPrefixOf (posixResolve workspace_root).segments p.segments = true ∧
      ".." ∉ p.segments) ∧
    (∀ e, resolve_workspace_path workspace_root path_str = Except.error e →
      e = "Access denied: Path " ++ path_str ++ " is outside the workspace") := by
  constructor
  · intro p hp
    simp only [resolve_workspace_path] at hp
    split_ifs at hp with hguard
    obtain rfl := Except.ok.inj hp
    exact ⟨rfl, hguard, normalizeSegments_no_dotdot _⟩
  · intro e he
    simp only [resolve_workspace_path] at he
    split_ifs at he with hguard
    exact (Except.error.inj he).symm

/-- Witness for C10: under root `/workspace`, the relative input
`docs/../notes.txt` resolves to `/workspace/notes.txt`, which is absolute,
normalized and under the root (and, by direct evaluation, the escape attempt
`../../etc/passwd` is denied with the access-denied error). -/
theorem C10_resolve_stays_under_root_witness :
    resolve_workspace_path (parsePath "/workspace") "docs/../notes.txt"
      = Except.ok { absolute := true, segments := ["workspace", "notes.txt"] } ∧
    resolve_workspace_path (parsePath "/workspace") "../../etc/passwd"
      = Except.error
          ("Access denied: Path " ++ "../../etc/passwd" ++ " is outside the workspace") ∧
    (({ absolute := true, segments := ["workspace", "notes.txt"] } : PurePath).absolute
        = true ∧
      List.isPrefixOf (posixResolve (parsePath "/workspace")).segments
        ["workspace", "notes.txt"] = true ∧
      ".." ∉ (["workspace", "notes.txt"] : List String)) :=
  ⟨by rfl, by rfl,
    (C10_resolve_stays_under_root (parsePath "/workspace") "docs/../notes.txt").1
      { absolute := true, segments := ["workspace", "notes.txt"] } (by rfl)⟩

end CodeAgent
